import Mathlib

/-!
Verification of the BabelDOC web task service (`web/main.go`).

This file gives a shallow embedding of the task-lifecycle core of the Go
program: the Go string helpers it uses, the task-identifier generator, the
submission handler's parameter filtering, the worker's command-line
construction and credential resolution (`processTask`), the
success/failure bookkeeping (`failTask` and the success path), the
download-by-name handler, and the list query.  Theorems about these
definitions settle the specified properties.

Conventions: Go `map[string][]string` / `map[string]string` values are
modelled as association lists (Go map iteration order is unspecified, so
order-insensitive statements are used where it matters); `time.Time` is
modelled by its broken-down fields plus the nanosecond-of-second; the
filesystem and the external process are modelled by explicit inputs
(glob result, rename success, spawn/wait errors).
-/

namespace BabelDoc

/-! ### Go string helpers -/

/-- `unicode.IsSpace` restricted to the Latin-1 range, which is the range
relevant to `strings.TrimSpace` on the form values handled here. -/
def goIsSpace (c : Char) : Bool :=
  c = ' ' || c = '\t' || c = '\n' || c = '\x0B' || c = '\x0C' || c = '\r' ||
  c = '\u0085' || c = '\u00A0'

/-- Go `strings.TrimSpace`: drop leading and trailing white space. -/
def goTrimSpace (s : String) : String :=
  ⟨((s.data.dropWhile goIsSpace).reverse.dropWhile goIsSpace).reverse⟩

/-- Whether a character is not the underscore separator. -/
def notUnderscore (c : Char) : Bool := c ≠ '_'

/-- Go `strings.Split(s, "_")[0]`: the part of `s` before the first
underscore (all of `s` when no underscore occurs). -/
def splitUnderscoreHead (s : String) : String :=
  ⟨s.data.takeWhile notUnderscore⟩

/-- Go `strings.Join(elems, " ")`. -/
def goJoinSpace (elems : List String) : String :=
  String.intercalate " " elems

/-- Go `filepath.Base`: the final path component. -/
def goBase (p : String) : String :=
  ⟨(p.data.reverse.takeWhile (fun c => c ≠ '/')).reverse⟩

/-- `filepath.Join(dir, name)` for an absolute, already-clean `dir` and a
non-empty `name`, as used throughout `main.go`.  Lexical cleaning of
`..` segments inside `name` is not performed here; the produced path is
the one the operating system resolves, so a `name` containing `..`
segments still denotes a file outside `dir`. -/
def pathJoin (dir name : String) : String :=
  dir ++ "/" ++ name

/-- `uploadDir` constant of `main.go`. -/
def uploadDir : String := "/tmp/babeldoc/uploads"

/-- `outputDir` constant of `main.go`. -/
def outputDir : String := "/tmp/babeldoc/outputs"

/-- `logsDir` constant of `main.go`. -/
def logsDir : String := "/tmp/babeldoc/logs"

/-! ### Time and task identifiers -/

/-- A Go `time.Time` instant, broken down as the format string
`"20060102-150405"` reads it, plus the nanosecond within the second.
Instants at or after the Unix epoch are the ones the service produces. -/
structure GoTime where
  year : Nat
  month : Nat
  day : Nat
  hour : Nat
  minute : Nat
  second : Nat
  nano : Nat
deriving DecidableEq

/-- Field ranges of a real calendar instant with a four-digit year. -/
def GoTime.valid (t : GoTime) : Prop :=
  t.year ≤ 9999 ∧ 1 ≤ t.month ∧ t.month ≤ 12 ∧ 1 ≤ t.day ∧ t.day ≤ 31 ∧
  t.hour ≤ 23 ∧ t.minute ≤ 59 ∧ t.second ≤ 59 ∧ t.nano < 1000000000

instance (t : GoTime) : Decidable t.valid := by
  unfold GoTime.valid; infer_instance

/-- Days from 1970-01-01 to the given civil date (standard civil-calendar
computation, for years from 1 onward). -/
def daysFromCivil (y m d : Nat) : Int :=
  let y2 := if m ≤ 2 then y - 1 else y
  let era := y2 / 400
  let yoe := y2 - era * 400
  let mp := if m ≤ 2 then m + 9 else m - 3
  let doy := (153 * mp + 2) / 5 + d - 1
  let doe := yoe * 365 + yoe / 4 - yoe / 100 + doy
  ((era * 146097 + doe : Nat) : Int) - 719468

/-- Go `time.Time.UnixNano()` of the instant. -/
def unixNano (t : GoTime) : Int :=
  (daysFromCivil t.year t.month t.day * 86400 +
    ((t.hour * 3600 + t.minute * 60 + t.second : Nat) : Int)) * 1000000000 +
    (t.nano : Int)

/-- The character `'0' + n` (a decimal digit for `n ≤ 9`). -/
def digitChar (n : Nat) : Char := Char.ofNat (48 + n)

/-- Two-digit zero-padded decimal, as Go's reference-time fields
(`"01"`, `"02"`, `"15"`, `"04"`, `"05"`) render values below 100. -/
def pad2 (n : Nat) : String := ⟨[digitChar (n / 10), digitChar (n % 10)]⟩

/-- Four-digit zero-padded decimal, as Go's `"2006"` renders the year. -/
def pad4 (n : Nat) : String := pad2 (n / 100) ++ pad2 (n % 100)

/-- `time.Now().Format("20060102-150405")`. -/
def fmtTimestamp (t : GoTime) : String :=
  pad4 t.year ++ pad2 t.month ++ pad2 t.day ++ "-" ++
  pad2 t.hour ++ pad2 t.minute ++ pad2 t.second

/-- The task identifier generated by `submitTaskHandler`:
`fmt.Sprintf("%s_%d", timestamp, time.Now().UnixNano()%10000)`.
The handler reads the clock again for the nanosecond part; the two reads
fall in the same instant for the purposes of this model. -/
def taskIdOf (t : GoTime) : String :=
  fmtTimestamp t ++ "_" ++ toString (unixNano t % 10000)

/-- The second-resolution fields of an instant, i.e. exactly the
information the `"20060102-150405"` format renders. -/
def dateFields (t : GoTime) : Nat × Nat × Nat × Nat × Nat × Nat :=
  (t.year, t.month, t.day, t.hour, t.minute, t.second)

/-! ### Task records and submission -/

/-- The `Status` strings of the Go `Task`. -/
inductive TaskStatus where
  | queued
  | running
  | success
  | failed
deriving DecidableEq

/-- The Go `Task` record (the persisted row; `Params` is kept as the
decoded key/value list rather than its JSON encoding, since
`json.Marshal`/`json.Unmarshal` of a `map[string]string` round-trips). -/
structure TaskRec where
  id : String
  filename : String
  status : TaskStatus
  langIn : String
  langOut : String
  pages : String
  params : List (String × String)
  createdAt : Nat
  startedAt : Option Nat
  completedAt : Option Nat
  error : String
  outputFile : String
  outputFiles : List String
deriving DecidableEq

/-- `r.FormValue(key)`: first value for the key, `""` when absent. -/
def formValue (form : List (String × List String)) (k : String) : String :=
  match form.find? (fun kv => kv.1 = k) with
  | some (_, v0 :: _) => v0
  | _ => ""

/-- Form keys the submission handler does not copy into the parameter
map (`key != "file" && key != "lang_in" && key != "lang_out" &&
key != "pages"`). -/
def reservedFormKeys : List String := ["file", "lang_in", "lang_out", "pages"]

/-- The parameter-map construction of `submitTaskHandler`: every other
form key with at least one value is kept with its trimmed first value,
unless that trimmed value is empty, `"false"` or `"off"`. -/
def submitParams (form : List (String × List String)) : List (String × String) :=
  form.filterMap fun kv =>
    match kv.2 with
    | [] => none
    | v0 :: _ =>
      if kv.1 ∈ reservedFormKeys then none
      else
        let v := goTrimSpace v0
        if v ≠ "" ∧ v ≠ "false" ∧ v ≠ "off" then some (kv.1, v) else none

/-- The task record `submitTaskHandler` creates and inserts (status
`queued`, language defaults `en`/`zh`, no timestamps beyond creation).
`now` is the submission instant and `createdAt` its abstract creation
clock used only for ordering in the list query. -/
def submitTask (now : GoTime) (createdAt : Nat) (origName : String)
    (form : List (String × List String)) : TaskRec :=
  { id := taskIdOf now
    filename := origName
    status := .queued
    langIn := if formValue form "lang_in" = "" then "en" else formValue form "lang_in"
    langOut := if formValue form "lang_out" = "" then "zh" else formValue form "lang_out"
    pages := formValue form "pages"
    params := submitParams form
    createdAt := createdAt
    startedAt := none
    completedAt := none
    error := ""
    outputFile := ""
    outputFiles := [] }

/-- The path `submitTaskHandler` stores the upload at:
`filepath.Join(uploadDir, timestamp+"_"+header.Filename)`. -/
def storedInputPath (tsStr origName : String) : String :=
  pathJoin uploadDir (tsStr ++ "_" ++ origName)

/-- The input path `processTask` reconstructs from the task record:
`timestamp := strings.Split(task.ID, "_")[0]` joined back with the
original filename. -/
def reconstructedInputPath (t : TaskRec) : String :=
  storedInputPath (splitUnderscoreHead t.id) t.filename

/-! ### Command-line construction and credential resolution -/

/-- The `OPENAI_API_KEY` / `OPENAI_MODEL` / `OPENAI_BASE_URL` process
environment (`""` models an unset variable, as `os.Getenv` returns). -/
structure OpenAIEnv where
  apiKey : String
  model : String
  baseURL : String
deriving DecidableEq

/-- The flag arguments one parameter entry contributes in the
`processTask` loop: the value is trimmed; an empty value contributes
nothing, `"true"`/`"on"` a bare flag, `"false"`/`"off"` nothing, and any
other value the flag plus the value. -/
def entryArgs (kv : String × String) : List String :=
  let v := goTrimSpace kv.2
  if v = "" then []
  else if v = "true" ∨ v = "on" then ["--" ++ kv.1]
  else if v = "false" ∨ v = "off" then []
  else ["--" ++ kv.1, v]

/-- All flag arguments contributed by the parameter map (the Go loop
appends the entries in map-iteration order; this list fixes one such
order). -/
def paramArgs (ps : List (String × String)) : List String :=
  ps.flatMap entryArgs

/-- Whether the parameter map supplies a non-empty (after trimming)
value for the key, i.e. the `hasAPIKey` / `hasModel` / `hasBaseURL`
checks of `processTask`. -/
def suppliesKey (ps : List (String × String)) (k : String) : Bool :=
  ps.any fun kv => kv.1 = k && goTrimSpace kv.2 ≠ ""

/-- The per-task scratch output directory
`filepath.Join(outputDir, task.ID)`. -/
def outputSubDir (t : TaskRec) : String := pathJoin outputDir t.id

/-- The arguments `processTask` assembles before the parameter loop:
input file, languages, output directory, optional page range. -/
def baseArgs (t : TaskRec) : List String :=
  ["--files", reconstructedInputPath t,
   "--lang-in", t.langIn,
   "--lang-out", t.langOut,
   "--output", outputSubDir t] ++
  (if t.pages ≠ "" then ["--pages", t.pages] else [])

/-- The credential arguments `processTask` appends when it falls back to
the environment: the key, the model (with default `gpt-4o-mini`), and
the base URL when present. -/
def envCredArgs (env : OpenAIEnv) : List String :=
  ["--openai-api-key", env.apiKey] ++
  (if env.model ≠ "" then ["--openai-model", env.model]
   else ["--openai-model", "gpt-4o-mini"]) ++
  (if env.baseURL ≠ "" then ["--openai-base-url", env.baseURL] else [])

/-- The command-line / credential phase of `processTask` (lines 547–621
of `main.go`): `some args` is the argument list the external process is
spawned with, `none` is the missing-credentials failure taken without
spawning.  The environment fallback happens only when none of the three
`openai-*` parameters carries a non-empty value; `--openai` is appended
unconditionally at the end of every spawned command. -/
def resolveCommand (t : TaskRec) (env : OpenAIEnv) : Option (List String) :=
  let args0 := baseArgs t ++ paramArgs t.params
  if !suppliesKey t.params "openai-api-key" &&
     !suppliesKey t.params "openai-model" &&
     !suppliesKey t.params "openai-base-url" then
    if env.apiKey ≠ "" then some (args0 ++ envCredArgs env ++ ["--openai"])
    else none
  else some (args0 ++ ["--openai"])

/-- The log line announcing the command:
`"==> 执行命令: babeldoc " + strings.Join(args, " ")`. -/
def cmdLogLine (args : List String) : String :=
  "==> 执行命令: babeldoc " ++ goJoinSpace args ++ "\n"

/-- Everything `processTask` writes to the task's log file before the
external process is started (or, when credentials are missing, before
the job is failed). -/
def preSpawnLog (t : TaskRec) (env : OpenAIEnv) : List String :=
  ["==> 开始翻译任务 " ++ t.id ++ "\n",
   "==> 文件名: " ++ t.filename ++ "\n",
   "==> 语言: " ++ t.langIn ++ " -> " ++ t.langOut ++ "\n"] ++
  (if !suppliesKey t.params "openai-api-key" &&
      !suppliesKey t.params "openai-model" &&
      !suppliesKey t.params "openai-base-url" then
    (if env.apiKey ≠ "" then
      ["==> 使用环境变量配置 OpenAI\n",
       cmdLogLine (baseArgs t ++ paramArgs t.params ++ envCredArgs env ++ ["--openai"])]
     else
      ["ERROR: 未配置 OpenAI，请在表单中填写 API Key、模型和 Base URL，或设置环境变量 OPENAI_API_KEY\n"])
   else
    ["==> 使用前端传递的 OpenAI 配置\n",
     cmdLogLine (baseArgs t ++ paramArgs t.params ++ ["--openai"])])

/-! ### Lifecycle transitions -/

/-- The `queued → running` update at the top of `processTask`. -/
def startTask (t : TaskRec) (now : Nat) : TaskRec :=
  { t with status := .running, startedAt := some now }

/-- The Go `failTask`: terminal failure with completion time and error. -/
def failTask (t : TaskRec) (now : Nat) (msg : String) : TaskRec :=
  { t with status := .failed, completedAt := some now, error := msg }

/-- The success update at the end of `processTask` (first finalized file
kept in the legacy single-output field). -/
def succeedTask (t : TaskRec) (now : Nat) (outs : List String) : TaskRec :=
  { t with status := .success, completedAt := some now,
           outputFile := outs.headD "", outputFiles := outs }

/-- The finalization loop: each globbed file whose rename succeeds
becomes `task.ID + "_" + filepath.Base(file)`; rename failures are
logged and skipped. -/
def finalizeOutputs (taskId0 : String) (files : List String)
    (renameOk : String → Bool) : List String :=
  files.filterMap fun f =>
    if renameOk f then some (taskId0 ++ "_" ++ goBase f) else none

/-- The outside world an execution interacts with: the credential
environment, whether the log file could be created, the spawn and wait
errors of the external process (`none` = success / exit status zero),
the glob result over the scratch directory (`none` = glob error), and
which renames succeed. -/
structure ExecWorld where
  env : OpenAIEnv
  logCreateOk : Bool
  spawnError : Option String
  waitError : Option String
  globResult : Option (List String)
  renameOk : String → Bool

/-- The whole of `processTask` as a record transformer: mark running,
then fail at the first failing step (log creation, credentials, spawn,
wait, empty glob, empty finalization) or record success with the
finalized outputs. -/
def runTask (t : TaskRec) (now : Nat) (w : ExecWorld) : TaskRec :=
  let t1 := startTask t now
  if !w.logCreateOk then failTask t1 now "无法创建日志文件"
  else
    match resolveCommand t1 w.env with
    | none => failTask t1 now "未配置 OpenAI API Key"
    | some _ =>
      match w.spawnError with
      | some e => failTask t1 now e
      | none =>
        match w.waitError with
        | some e => failTask t1 now e
        | none =>
          match w.globResult with
          | none => failTask t1 now "未找到输出文件"
          | some files =>
            if files = [] then failTask t1 now "未找到输出文件"
            else
              let outs := finalizeOutputs t1.id files w.renameOk
              if outs = [] then failTask t1 now "无法保存输出文件"
              else succeedTask t1 now outs

/-- The task records the service ever persists: a fresh submission, the
running snapshot persisted at the top of `processTask`, and the terminal
record `processTask` leaves behind.  Only queued records are enqueued
and each is processed by the single worker once. -/
inductive Reachable : TaskRec → Prop
  | submitted (now : GoTime) (createdAt : Nat) (origName : String)
      (form : List (String × List String)) :
      Reachable (submitTask now createdAt origName form)
  | started (t : TaskRec) (now : Nat) :
      Reachable t → t.status = .queued → Reachable (startTask t now)
  | ran (t : TaskRec) (now : Nat) (w : ExecWorld) :
      Reachable t → t.status = .queued → Reachable (runTask t now w)

/-! ### Queries -/

/-- `listTasksHandler`'s `SELECT ... ORDER BY created_at DESC` over the
stored rows. -/
def listTasks (rows : List TaskRec) : List TaskRec :=
  rows.mergeSort (fun a b => b.createdAt ≤ a.createdAt)

/-- Outcome of `downloadTaskHandler` for a request naming a file. -/
inductive DownloadResult where
  | notFoundTask
  | notFoundFile
  | serve (path : String)
deriving DecidableEq

/-- The named-file branch of `downloadTaskHandler`.  `row` is the task
lookup: `none` when no row matches the identifier, otherwise the
`output_files` column, where `none` models a NULL / empty / unparseable
column and `some files` a decoded output list.  `fs` is the set of
paths that exist on disk.  The membership check runs only when the
column decodes to a list; otherwise the requested name goes straight to
the filesystem probe. -/
def downloadNamed (row : Option (Option (List String))) (fileName : String)
    (fs : List String) : DownloadResult :=
  match row with
  | none => .notFoundTask
  | some col =>
    let ok := match col with
      | some files => files.contains fileName
      | none => true
    if ok then
      let fp := pathJoin outputDir fileName
      if fs.contains fp then .serve fp else .notFoundFile
    else .notFoundFile

/-- Keys whose flags `processTask` emits on its own, independently of
the parameter map: the base arguments and the unconditional final
`--openai`. -/
def engineFlagKeys : List String :=
  ["openai", "files", "lang-in", "lang-out", "output", "pages"]

/-- The three credential parameters recognized by the environment
fallback of `processTask`. -/
def openaiParamKeys : List String :=
  ["openai-api-key", "openai-model", "openai-base-url"]

/-! ### Concrete fixtures used by witnesses and counterexamples -/

/-- A queued task record as `submitTaskHandler` would create it, with the
given parameter map. -/
def sampleTask (ps : List (String × String)) : TaskRec :=
  { id := "20240315-102030_0", filename := "a.pdf", status := .queued,
    langIn := "en", langOut := "zh", pages := "", params := ps,
    createdAt := 0, startedAt := none, completedAt := none, error := "",
    outputFile := "", outputFiles := [] }

/-- An execution world with no credentials in the environment, a working
log file, a clean process run, and an empty glob result. -/
def sampleWorld : ExecWorld :=
  { env := ⟨"", "", ""⟩, logCreateOk := true, spawnError := none,
    waitError := none, globResult := some [], renameOk := fun _ => true }

end BabelDoc

namespace BabelDoc

/-! ### Theorems -/

/-! #### Helper lemmas about the Go string operations -/

theorem dropWhile_self_idem (p : Char → Bool) (l : List Char) :
    (l.dropWhile p).dropWhile p = l.dropWhile p := by
  induction l with
  | nil => rfl
  | cons a l ih => cases h : p a <;> simp [List.dropWhile_cons, h, ih]

/-- A front part of a list the `dropWhile` leaves whole is itself left
whole. -/
theorem dropWhile_eq_self_of_append (p : Char → Bool) (l2 r : List Char)
    (h : (l2 ++ r).dropWhile p = l2 ++ r) : l2.dropWhile p = l2 := by
  cases l2 with
  | nil => rfl
  | cons a t =>
    by_cases hp : p a = true
    · exfalso
      rw [List.cons_append, List.dropWhile_cons, if_pos hp] at h
      have hlen := congrArg List.length h
      rw [List.length_cons] at hlen
      have hle := (List.dropWhile_sublist (l := t ++ r) p).length_le
      omega
    · simp [List.dropWhile_cons, hp]

theorem goTrimSpace_data (s : String) :
    (goTrimSpace s).data =
      ((s.data.dropWhile goIsSpace).reverse.dropWhile goIsSpace).reverse := rfl

/-- The result of a trim starts with a non-space (or is empty) and ends
with a non-space (or is empty), so trimming it again changes nothing. -/
theorem goTrimSpace_idem (s : String) :
    goTrimSpace (goTrimSpace s) = goTrimSpace s := by
  apply String.ext
  rw [goTrimSpace_data, goTrimSpace_data]
  have hidem : (s.data.dropWhile goIsSpace).dropWhile goIsSpace =
      s.data.dropWhile goIsSpace := dropWhile_self_idem goIsSpace s.data
  have hrev :
      (((s.data.dropWhile goIsSpace).reverse.dropWhile goIsSpace).reverse).reverse =
        (s.data.dropWhile goIsSpace).reverse.dropWhile goIsSpace := by
    rw [List.reverse_reverse]
  -- the trimmed list is a front part of the left-trimmed list
  obtain ⟨r, hr⟩ : ∃ r,
      ((s.data.dropWhile goIsSpace).reverse.dropWhile goIsSpace).reverse ++ r =
        s.data.dropWhile goIsSpace := by
    obtain ⟨r0, hr0⟩ :=
      List.dropWhile_suffix (l := (s.data.dropWhile goIsSpace).reverse) goIsSpace
    refine ⟨r0.reverse, ?_⟩
    have := congrArg List.reverse hr0
    simpa using this
  have hhead :
      (((s.data.dropWhile goIsSpace).reverse.dropWhile goIsSpace).reverse).dropWhile
        goIsSpace =
      ((s.data.dropWhile goIsSpace).reverse.dropWhile goIsSpace).reverse := by
    apply dropWhile_eq_self_of_append goIsSpace _ r
    rw [hr]
    exact hidem
  rw [hhead, hrev, dropWhile_self_idem]

/-- Cancel a common front string. -/
theorem string_append_cancel (s : String) {a b : String} (h : s ++ a = s ++ b) :
    a = b := by
  have := congrArg String.data h
  simp only [String.data_append] at this
  exact String.ext (List.append_cancel_left this)

/-- `runTask` never touches the parameter map. -/
theorem runTask_params (t : TaskRec) (now : Nat) (w : ExecWorld) :
    (runTask t now w).params = t.params := by
  simp only [runTask]
  repeat' split
  all_goals rfl

/-! #### Lifecycle invariants -/

/-- C6: every record the service persists has a completion timestamp
exactly when its status is terminal (`success` or `failed`), and a
non-empty output list exactly when its status is `success`. -/
theorem reachable_completedAt_outputs (t : TaskRec) (h : Reachable t) :
    (t.completedAt ≠ none ↔ (t.status = .success ∨ t.status = .failed)) ∧
    (t.outputFiles ≠ [] ↔ t.status = .success) := by
  induction h with
  | submitted now ct name form => simp [submitTask]
  | started t now ht hq ih =>
    have hc : t.completedAt = none := by
      by_contra hcn
      rcases (ih.1).mp hcn with h1 | h1 <;> rw [hq] at h1 <;> exact absurd h1 (by simp)
    have ho : t.outputFiles = [] := by
      by_contra hon
      have := (ih.2).mp hon
      rw [hq] at this; exact absurd this (by simp)
    simp [startTask, hc, ho, hq]
  | ran t now w ht hq ih =>
    have hc : t.completedAt = none := by
      by_contra hcn
      rcases (ih.1).mp hcn with h1 | h1 <;> rw [hq] at h1 <;> exact absurd h1 (by simp)
    have ho : t.outputFiles = [] := by
      by_contra hon
      have := (ih.2).mp hon
      rw [hq] at this; exact absurd this (by simp)
    simp only [runTask]
    repeat' split
    all_goals simp_all [failTask, succeedTask, startTask]

/-- C6 (witness): the instantiated invariant at a freshly submitted
record. -/
theorem reachable_completedAt_outputs_witness :
    ((submitTask ⟨2024, 3, 15, 10, 20, 30, 0⟩ 0 "a.pdf" []).completedAt ≠ none ↔
      ((submitTask ⟨2024, 3, 15, 10, 20, 30, 0⟩ 0 "a.pdf" []).status = .success ∨
       (submitTask ⟨2024, 3, 15, 10, 20, 30, 0⟩ 0 "a.pdf" []).status = .failed)) ∧
    ((submitTask ⟨2024, 3, 15, 10, 20, 30, 0⟩ 0 "a.pdf" []).outputFiles ≠ [] ↔
      (submitTask ⟨2024, 3, 15, 10, 20, 30, 0⟩ 0 "a.pdf" []).status = .success) :=
  reachable_completedAt_outputs _
    (Reachable.submitted ⟨2024, 3, 15, 10, 20, 30, 0⟩ 0 "a.pdf" [])

/-- C10: every persisted record's parameter map holds only entries whose
trimmed value is non-empty and neither `"false"` nor `"off"`; the entries
are filtered at submission (and stored already trimmed, so trimming is
idempotent on them) and no later operation modifies the map. -/
theorem reachable_params_filtered (t : TaskRec) (h : Reachable t) :
    ∀ kv ∈ t.params,
      goTrimSpace kv.2 ≠ "" ∧ goTrimSpace kv.2 ≠ "false" ∧ goTrimSpace kv.2 ≠ "off" := by
  induction h with
  | submitted now ct name form =>
    intro kv hkv
    simp only [submitTask] at hkv
    rw [submitParams, List.mem_filterMap] at hkv
    obtain ⟨⟨k0, vs⟩, _, hsome⟩ := hkv
    rcases vs with _ | ⟨v0, vrest⟩
    · simp at hsome
    · simp only at hsome
      split at hsome
      · simp at hsome
      · split at hsome
        · rename_i hcond
          obtain ⟨h1, h2, h3⟩ := hcond
          have hkv2 : kv.2 = goTrimSpace v0 := by
            have := congrArg Prod.snd (Option.some.inj hsome)
            simpa using this.symm
          rw [hkv2, goTrimSpace_idem]
          exact ⟨h1, h2, h3⟩
        · simp at hsome
  | started t now ht hq ih =>
    simpa [startTask] using ih
  | ran t now w ht hq ih =>
    rw [runTask_params]
    exact ih

/-- C10 (witness): the instantiated filter property at a submission with
one surviving parameter. -/
theorem reachable_params_filtered_witness :
    goTrimSpace "v" ≠ "" ∧ goTrimSpace "v" ≠ "false" ∧ goTrimSpace "v" ≠ "off" :=
  reachable_params_filtered _
    (Reachable.submitted ⟨2024, 3, 15, 10, 20, 30, 0⟩ 0 "a.pdf" [("x", ["v"])])
    ("x", "v") (by decide)

/-- C1 (counterexample): a job that supplies `openai-model` but no
`openai-api-key`, in an environment without `OPENAI_API_KEY`, is *not*
failed for missing credentials: `resolveCommand` still produces an
argument list, i.e. the external process is spawned without any API
key.  This refutes the claim that the missing-credentials failure
happens regardless of which other parameters were supplied. -/
theorem resolveCommand_spawns_without_key_when_model_supplied :
    suppliesKey (sampleTask [("openai-model", "gpt-4")]).params "openai-api-key" = false ∧
    (⟨"", "", ""⟩ : OpenAIEnv).apiKey = "" ∧
    (resolveCommand (sampleTask [("openai-model", "gpt-4")]) ⟨"", "", ""⟩).isSome = true := by
  decide

/-- C1 (amended): the execution step fails with the missing-credentials
error, without spawning, exactly when *none* of the three `openai-*`
parameters carries a non-empty value and the environment supplies no
API key; in that case `processTask` ends in `failTask` with the
missing-key error. -/
theorem runTask_missing_credentials_iff (t : TaskRec) (now : Nat) (w : ExecWorld)
    (hlog : w.logCreateOk = true) :
    (resolveCommand (startTask t now) w.env = none ↔
      (suppliesKey t.params "openai-api-key" = false ∧
       suppliesKey t.params "openai-model" = false ∧
       suppliesKey t.params "openai-base-url" = false ∧
       w.env.apiKey = "")) ∧
    (resolveCommand (startTask t now) w.env = none →
      runTask t now w = failTask (startTask t now) now "未配置 OpenAI API Key") := by
  constructor
  · show (resolveCommand { t with status := _, startedAt := _ } w.env = none ↔ _)
    simp only [resolveCommand, startTask]
    rcases ha : suppliesKey t.params "openai-api-key" <;>
      rcases hb : suppliesKey t.params "openai-model" <;>
      rcases hc : suppliesKey t.params "openai-base-url" <;>
      by_cases hk : w.env.apiKey = "" <;>
      simp [ha, hb, hc, hk]
  · intro h
    simp only [runTask, hlog, Bool.not_true, Bool.false_eq_true, if_false, h]

/-- C1 (witness for the amended theorem) at a concrete queued task with
no parameters and an empty environment. -/
theorem runTask_missing_credentials_iff_witness :
    (resolveCommand (startTask (sampleTask []) 7) sampleWorld.env = none ↔
      (suppliesKey (sampleTask []).params "openai-api-key" = false ∧
       suppliesKey (sampleTask []).params "openai-model" = false ∧
       suppliesKey (sampleTask []).params "openai-base-url" = false ∧
       sampleWorld.env.apiKey = "")) ∧
    (resolveCommand (startTask (sampleTask []) 7) sampleWorld.env = none →
      runTask (sampleTask []) 7 sampleWorld =
        failTask (startTask (sampleTask []) 7) 7 "未配置 OpenAI API Key") :=
  runTask_missing_credentials_iff (sampleTask []) 7 sampleWorld rfl

/-- C2: the API key taken from the job's parameter map is written to the
job's log: the command log line spells out the full argument list,
including `--openai-api-key` and the key value, so the credential
`sk-secret123` occurs in the log text. -/
theorem preSpawnLog_contains_api_key :
    suppliesKey (sampleTask [("openai-api-key", "sk-secret123")]).params
      "openai-api-key" = true ∧
    "sk-secret123".data <:+:
      (String.join (preSpawnLog (sampleTask [("openai-api-key", "sk-secret123")])
        ⟨"", "", ""⟩)).data := by
  set_option maxRecDepth 10000 in decide

/-- C3: for a task whose stored `output_files` column is NULL (any task
that never reached success), the membership check of
`downloadTaskHandler` is skipped entirely, so a requested name that is
not among the job's recorded outputs — here a `..`-traversal name — is
served whenever the joined path exists on disk; when the column does
decode to a list, the same name is rejected. -/
theorem downloadNamed_bypasses_output_list :
    downloadNamed (some none) "../../../etc/passwd"
        [pathJoin outputDir "../../../etc/passwd"] =
      DownloadResult.serve (pathJoin outputDir "../../../etc/passwd") ∧
    downloadNamed (some (some ["x.pdf"])) "../../../etc/passwd"
        [pathJoin outputDir "../../../etc/passwd"] =
      DownloadResult.notFoundFile := by
  decide

/-- C5: when the external process runs and exits with status zero but
the glob over the scratch directory yields zero matches, `processTask`
fails the job with the no-output error despite the clean exit. -/
theorem runTask_zero_glob_fails (t : TaskRec) (now : Nat) (w : ExecWorld)
    (hlog : w.logCreateOk = true)
    (hcmd : (resolveCommand (startTask t now) w.env).isSome = true)
    (hspawn : w.spawnError = none)
    (hwait : w.waitError = none)
    (hglob : w.globResult = some []) :
    (runTask t now w).status = .failed ∧
    (runTask t now w).error = "未找到输出文件" := by
  obtain ⟨args, hargs⟩ := Option.isSome_iff_exists.mp hcmd
  simp [runTask, hlog, hargs, hspawn, hwait, hglob, failTask]

/-- C5 (witness): a concrete job with an API key parameter, a clean
process run, and an empty glob ends failed with the no-output error. -/
theorem runTask_zero_glob_fails_witness :
    (runTask (sampleTask [("openai-api-key", "sk-1")]) 7 sampleWorld).status =
      TaskStatus.failed ∧
    (runTask (sampleTask [("openai-api-key", "sk-1")]) 7 sampleWorld).error =
      "未找到输出文件" :=
  runTask_zero_glob_fails (sampleTask [("openai-api-key", "sk-1")]) 7 sampleWorld
    rfl (by decide) rfl rfl rfl

/-- C8: the list query returns exactly the stored records (a permutation
of the rows) ordered by creation time descending. -/
theorem listTasks_perm_sorted (rows : List TaskRec) :
    (listTasks rows).Perm rows ∧
    (listTasks rows).Pairwise (fun a b => b.createdAt ≤ a.createdAt) := by
  constructor
  · exact List.mergeSort_perm rows _
  · have h := @List.sorted_mergeSort TaskRec
      (fun a b => decide (b.createdAt ≤ a.createdAt))
      (by intro a b c hab hbc; simp only [decide_eq_true_eq] at *; omega)
      (by intro a b; simp only [Bool.or_eq_true, decide_eq_true_eq]; omega)
      rows
    exact h.imp (by intro a b hab; simpa using hab)

/-! #### Digits, the timestamp format, and identifier structure -/

theorem digitChar_inj_fin : ∀ x y : Fin 10, digitChar x.val = digitChar y.val → x = y := by
  decide

theorem digitChar_inj {a b : Nat} (ha : a ≤ 9) (hb : b ≤ 9)
    (h : digitChar a = digitChar b) : a = b := by
  have := digitChar_inj_fin ⟨a, by omega⟩ ⟨b, by omega⟩ h
  simpa using congrArg Fin.val this

theorem digitChar_ne_underscore {a : Nat} (ha : a ≤ 9) : digitChar a ≠ '_' := by
  have h10 : ∀ x : Fin 10, digitChar x.val ≠ '_' := by decide
  exact h10 ⟨a, by omega⟩

/-- The fifteen characters of the `"20060102-150405"` rendering. -/
theorem fmtTimestamp_data (t : GoTime) :
    (fmtTimestamp t).data =
      [digitChar (t.year / 100 / 10), digitChar (t.year / 100 % 10),
       digitChar (t.year % 100 / 10), digitChar (t.year % 100 % 10),
       digitChar (t.month / 10), digitChar (t.month % 10),
       digitChar (t.day / 10), digitChar (t.day % 10), '-',
       digitChar (t.hour / 10), digitChar (t.hour % 10),
       digitChar (t.minute / 10), digitChar (t.minute % 10),
       digitChar (t.second / 10), digitChar (t.second % 10)] := rfl

theorem fmtTimestamp_length (t : GoTime) : (fmtTimestamp t).data.length = 15 := by
  rw [fmtTimestamp_data]; rfl

theorem fmtTimestamp_no_underscore (t : GoTime) (h : t.valid) :
    ∀ c ∈ (fmtTimestamp t).data, c ≠ '_' := by
  obtain ⟨hy, hm1, hm2, hd1, hd2, hh, hmin, hs, hn⟩ := h
  rw [fmtTimestamp_data]
  intro c hc
  fin_cases hc
  case _ => exact digitChar_ne_underscore (by omega)
  case _ => exact digitChar_ne_underscore (by omega)
  case _ => exact digitChar_ne_underscore (by omega)
  case _ => exact digitChar_ne_underscore (by omega)
  case _ => exact digitChar_ne_underscore (by omega)
  case _ => exact digitChar_ne_underscore (by omega)
  case _ => exact digitChar_ne_underscore (by omega)
  case _ => exact digitChar_ne_underscore (by omega)
  case _ => decide
  case _ => exact digitChar_ne_underscore (by omega)
  case _ => exact digitChar_ne_underscore (by omega)
  case _ => exact digitChar_ne_underscore (by omega)
  case _ => exact digitChar_ne_underscore (by omega)
  case _ => exact digitChar_ne_underscore (by omega)
  case _ => exact digitChar_ne_underscore (by omega)

/-- Two valid instants rendering to the same timestamp string agree on
all six second-resolution fields. -/
theorem fmtTimestamp_inj {t1 t2 : GoTime} (h1 : t1.valid) (h2 : t2.valid)
    (h : fmtTimestamp t1 = fmtTimestamp t2) : dateFields t1 = dateFields t2 := by
  obtain ⟨hy1, hm11, hm12, hd11, hd12, hh1, hmin1, hs1, hn1⟩ := h1
  obtain ⟨hy2, hm21, hm22, hd21, hd22, hh2, hmin2, hs2, hn2⟩ := h2
  have hd := congrArg String.data h
  rw [fmtTimestamp_data, fmtTimestamp_data] at hd
  simp only [List.cons.injEq, and_true] at hd
  obtain ⟨e1, e2, e3, e4, e5, e6, e7, e8, _, e10, e11, e12, e13, e14, e15⟩ := hd
  have hyear : t1.year = t2.year := by
    have a1 := digitChar_inj (by omega) (by omega) e1
    have a2 := digitChar_inj (by omega) (by omega) e2
    have a3 := digitChar_inj (by omega) (by omega) e3
    have a4 := digitChar_inj (by omega) (by omega) e4
    omega
  have hmonth : t1.month = t2.month := by
    have a1 := digitChar_inj (by omega) (by omega) e5
    have a2 := digitChar_inj (by omega) (by omega) e6
    omega
  have hday : t1.day = t2.day := by
    have a1 := digitChar_inj (by omega) (by omega) e7
    have a2 := digitChar_inj (by omega) (by omega) e8
    omega
  have hhour : t1.hour = t2.hour := by
    have a1 := digitChar_inj (by omega) (by omega) e10
    have a2 := digitChar_inj (by omega) (by omega) e11
    omega
  have hminute : t1.minute = t2.minute := by
    have a1 := digitChar_inj (by omega) (by omega) e12
    have a2 := digitChar_inj (by omega) (by omega) e13
    omega
  have hsecond : t1.second = t2.second := by
    have a1 := digitChar_inj (by omega) (by omega) e14
    have a2 := digitChar_inj (by omega) (by omega) e15
    omega
  simp [dateFields, hyear, hmonth, hday, hhour, hminute, hsecond]

/-- C7 (counterexample): two distinct valid submission instants — same
second, nanosecond parts 0 and 10000 — receive the *same* generated
identifier, so identifiers are not unique across distinct submissions. -/
theorem taskId_collision :
    (⟨2024, 3, 15, 10, 20, 30, 0⟩ : GoTime) ≠ ⟨2024, 3, 15, 10, 20, 30, 10000⟩ ∧
    (⟨2024, 3, 15, 10, 20, 30, 0⟩ : GoTime).valid ∧
    (⟨2024, 3, 15, 10, 20, 30, 10000⟩ : GoTime).valid ∧
    taskIdOf ⟨2024, 3, 15, 10, 20, 30, 0⟩ =
      taskIdOf ⟨2024, 3, 15, 10, 20, 30, 10000⟩ := by
  decide

/-- C7 (amended): every identifier embeds the creation timestamp as a
prefix, and submissions whose timestamps differ at second resolution
receive different identifiers; only within one second can identifiers
collide (exactly when the `UnixNano` remainders mod 10000 coincide, as
the counterexample shows), so the generator alone does not guarantee
uniqueness for the lifetime of the store. -/
theorem taskId_embeds_timestamp (t1 t2 : GoTime) (h1 : t1.valid) (h2 : t2.valid) :
    (taskIdOf t1 = taskIdOf t2 → dateFields t1 = dateFields t2) ∧
    (∃ rest, taskIdOf t1 = fmtTimestamp t1 ++ rest) := by
  constructor
  · intro h
    apply fmtTimestamp_inj h1 h2
    have hd := congrArg String.data h
    simp only [taskIdOf, String.data_append] at hd
    rw [List.append_assoc, List.append_assoc] at hd
    have := List.append_inj hd (by rw [fmtTimestamp_length, fmtTimestamp_length])
    exact String.ext this.1
  · exact ⟨"_" ++ toString (unixNano t1 % 10000), by rw [taskIdOf, String.append_assoc]⟩

/-- C7 (witness for the amended theorem): instantiated at two valid
instants in different seconds. -/
theorem taskId_embeds_timestamp_witness :
    (taskIdOf ⟨2024, 3, 15, 10, 20, 30, 0⟩ = taskIdOf ⟨2025, 1, 1, 0, 0, 0, 0⟩ →
      dateFields ⟨2024, 3, 15, 10, 20, 30, 0⟩ = dateFields ⟨2025, 1, 1, 0, 0, 0, 0⟩) ∧
    (∃ rest, taskIdOf ⟨2024, 3, 15, 10, 20, 30, 0⟩ =
      fmtTimestamp ⟨2024, 3, 15, 10, 20, 30, 0⟩ ++ rest) :=
  taskId_embeds_timestamp ⟨2024, 3, 15, 10, 20, 30, 0⟩ ⟨2025, 1, 1, 0, 0, 0, 0⟩
    (by decide) (by decide)

/-- The worker's `strings.Split(task.ID, "_")[0]` recovers exactly the
timestamp component of a generated identifier, since the timestamp
rendering contains no underscore. -/
theorem splitUnderscoreHead_taskId (t : GoTime) (h : t.valid) :
    splitUnderscoreHead (taskIdOf t) = fmtTimestamp t := by
  apply String.ext
  show ((taskIdOf t).data.takeWhile notUnderscore) = (fmtTimestamp t).data
  have hall : (fmtTimestamp t).data.takeWhile notUnderscore = (fmtTimestamp t).data := by
    rw [List.takeWhile_eq_self_iff]
    intro x hx
    have := fmtTimestamp_no_underscore t h x hx
    simp only [notUnderscore, decide_eq_true_eq]
    exact this
  have hdata : (taskIdOf t).data =
      (fmtTimestamp t).data ++ '_' :: (toString (unixNano t % 10000)).data := by
    simp [taskIdOf, String.data_append]
  rw [hdata, List.takeWhile_append, hall]
  simp [notUnderscore]

/-- C9: the input path the worker reconstructs from a submitted task —
timestamp recovered from the identifier, joined with the stored
filename — is exactly the path the submission handler wrote the upload
to. -/
theorem input_path_roundtrip (t : GoTime) (h : t.valid) (createdAt : Nat)
    (origName : String) (form : List (String × List String)) :
    reconstructedInputPath (submitTask t createdAt origName form) =
      storedInputPath (fmtTimestamp t) origName := by
  show storedInputPath (splitUnderscoreHead (taskIdOf t)) origName = _
  rw [splitUnderscoreHead_taskId t h]

/-- C9 (witness): the round trip at a concrete valid submission. -/
theorem input_path_roundtrip_witness :
    reconstructedInputPath (submitTask ⟨2024, 3, 15, 10, 20, 30, 0⟩ 0 "report.pdf" []) =
      storedInputPath (fmtTimestamp ⟨2024, 3, 15, 10, 20, 30, 0⟩) "report.pdf" :=
  input_path_roundtrip ⟨2024, 3, 15, 10, 20, 30, 0⟩ (by decide) 0 "report.pdf" []

/-! #### Flag-occurrence accounting for the derived command line -/

theorem entryArgs_mem (kv : String × String) :
    ∀ x ∈ entryArgs kv, x = "--" ++ kv.1 ∨ x = goTrimSpace kv.2 := by
  intro x hx
  simp only [entryArgs] at hx
  split at hx
  · simp at hx
  · split at hx
    · simp at hx
      exact Or.inl hx
    · split at hx
      · simp at hx
      · simp at hx
        rcases hx with h | h
        · exact Or.inl h
        · exact Or.inr h

theorem entryArgs_eq_flag (k v : String)
    (h : goTrimSpace v = "true" ∨ goTrimSpace v = "on") :
    entryArgs (k, v) = ["--" ++ k] := by
  rcases h with h | h <;> simp [entryArgs, h]

theorem entryArgs_eq_nil (k v : String)
    (h : goTrimSpace v = "" ∨ goTrimSpace v = "false" ∨ goTrimSpace v = "off") :
    entryArgs (k, v) = [] := by
  rcases h with h | h | h <;> simp [entryArgs, h]

theorem flag_inj {k1 k2 : String} (h : ("--" ++ k1 : String) = "--" ++ k2) :
    k1 = k2 :=
  string_append_cancel "--" h

theorem count_entryArgs_ne (kv : String × String) (tok : String)
    (hk : tok ≠ "--" ++ kv.1) (hv : tok ≠ goTrimSpace kv.2) :
    (entryArgs kv).count tok = 0 := by
  rw [List.count_eq_zero]
  intro hmem
  rcases entryArgs_mem kv tok hmem with h | h
  · exact hk h
  · exact hv h

theorem count_paramArgs_zero (ps : List (String × String)) (tok : String)
    (h : ∀ kv ∈ ps, tok ≠ "--" ++ kv.1 ∧ tok ≠ goTrimSpace kv.2) :
    (paramArgs ps).count tok = 0 := by
  induction ps with
  | nil => rfl
  | cons kv rest ih =>
    rw [paramArgs, List.flatMap_cons, List.count_append]
    rw [count_entryArgs_ne kv tok (h kv (by simp)).1 (h kv (by simp)).2]
    have := ih (fun kv2 h2 => h kv2 (by simp [h2]))
    rw [paramArgs] at this
    omega

/-- In a parameter map with distinct keys, the flag of the key `k`
occurs in the derived parameter arguments exactly as often as in the
arguments of `k`'s own entry (trimmed values never impersonate the
flag). -/
theorem count_paramArgs_of_mem (ps : List (String × String)) (k v : String)
    (hnd : (ps.map Prod.fst).Nodup) (hmem : (k, v) ∈ ps)
    (hvals : ∀ kv ∈ ps, ("--" ++ k) ≠ goTrimSpace kv.2) :
    (paramArgs ps).count ("--" ++ k) = (entryArgs (k, v)).count ("--" ++ k) := by
  induction ps with
  | nil => simp at hmem
  | cons kv rest ih =>
    rw [paramArgs, List.flatMap_cons, List.count_append]
    rw [List.map_cons, List.nodup_cons] at hnd
    rcases List.mem_cons.mp hmem with heq | hmem2
    · subst heq
      have hz : (paramArgs rest).count ("--" ++ k) = 0 := by
        apply count_paramArgs_zero
        intro kv2 h2
        constructor
        · intro hflag
          have hk2 : k = kv2.1 := flag_inj hflag
          exact hnd.1 (List.mem_map.mpr ⟨kv2, h2, hk2.symm⟩)
        · exact hvals kv2 (by simp [h2])
      rw [paramArgs] at hz
      omega
    · have hne : kv.1 ≠ k := by
        intro hkk
        exact hnd.1 (List.mem_map.mpr ⟨(k, v), hmem2, hkk.symm⟩)
      rw [count_entryArgs_ne kv _ (fun hflag => hne (flag_inj hflag).symm)
        (hvals kv (by simp))]
      have := ih hnd.2 hmem2 (fun kv2 h2 => hvals kv2 (by simp [h2]))
      rw [paramArgs] at this
      omega

theorem count_singleton_ne {a b : String} (h : b ≠ a) : List.count a [b] = 0 := by
  simp [List.count_singleton, h]

theorem count_baseArgs_zero (t : TaskRec) (k : String)
    (hk : k ∉ engineFlagKeys)
    (h1 : ("--" ++ k) ≠ reconstructedInputPath t)
    (h2 : ("--" ++ k) ≠ t.langIn)
    (h3 : ("--" ++ k) ≠ t.langOut)
    (h4 : ("--" ++ k) ≠ t.pages)
    (h5 : ("--" ++ k) ≠ outputSubDir t) :
    (baseArgs t).count ("--" ++ k) = 0 := by
  simp only [engineFlagKeys, List.mem_cons, List.not_mem_nil, or_false, not_or] at hk
  obtain ⟨hko, hkf, hkli, hklo, hkou, hkpg⟩ := hk
  rw [List.count_eq_zero]
  intro hmem
  rw [baseArgs] at hmem
  rcases List.mem_append.mp hmem with h | h
  · simp only [List.mem_cons, List.not_mem_nil, or_false] at h
    rcases h with h | h | h | h | h | h | h | h
    · exact hkf (flag_inj (show ("--" ++ k : String) = "--" ++ "files" from h))
    · exact h1 h
    · exact hkli (flag_inj (show ("--" ++ k : String) = "--" ++ "lang-in" from h))
    · exact h2 h
    · exact hklo (flag_inj (show ("--" ++ k : String) = "--" ++ "lang-out" from h))
    · exact h3 h
    · exact hkou (flag_inj (show ("--" ++ k : String) = "--" ++ "output" from h))
    · exact h5 h
  · by_cases hp : t.pages ≠ ""
    · rw [if_pos hp] at h
      simp only [List.mem_cons, List.not_mem_nil, or_false] at h
      rcases h with h | h
      · exact hkpg (flag_inj (show ("--" ++ k : String) = "--" ++ "pages" from h))
      · exact h4 h
    · rw [if_neg hp] at h
      exact List.not_mem_nil _ h

theorem count_envCredArgs_zero (env : OpenAIEnv) (k : String)
    (hk : k ∉ openaiParamKeys)
    (h1 : ("--" ++ k) ≠ env.apiKey)
    (h2 : ("--" ++ k) ≠ env.model)
    (h3 : ("--" ++ k) ≠ env.baseURL)
    (h4 : ("--" ++ k) ≠ "gpt-4o-mini") :
    (envCredArgs env).count ("--" ++ k) = 0 := by
  simp only [openaiParamKeys, List.mem_cons, List.not_mem_nil, or_false, not_or] at hk
  obtain ⟨hka, hkm, hkb⟩ := hk
  rw [List.count_eq_zero]
  intro hmem
  rw [envCredArgs] at hmem
  rcases List.mem_append.mp hmem with h | h
  · rcases List.mem_append.mp h with h | h
    · simp only [List.mem_cons, List.not_mem_nil, or_false] at h
      rcases h with h | h
      · exact hka (flag_inj (show ("--" ++ k : String) = "--" ++ "openai-api-key" from h))
      · exact h1 h
    · by_cases hm : env.model ≠ ""
      · rw [if_pos hm] at h
        simp only [List.mem_cons, List.not_mem_nil, or_false] at h
        rcases h with h | h
        · exact hkm (flag_inj (show ("--" ++ k : String) = "--" ++ "openai-model" from h))
        · exact h2 h
      · rw [if_neg hm] at h
        simp only [List.mem_cons, List.not_mem_nil, or_false] at h
        rcases h with h | h
        · exact hkm (flag_inj (show ("--" ++ k : String) = "--" ++ "openai-model" from h))
        · exact h4 h
  · by_cases hb : env.baseURL ≠ ""
    · rw [if_pos hb] at h
      simp only [List.mem_cons, List.not_mem_nil, or_false] at h
      rcases h with h | h
      · exact hkb (flag_inj (show ("--" ++ k : String) = "--" ++ "openai-base-url" from h))
      · exact h3 h
    · rw [if_neg hb] at h
      exact List.not_mem_nil _ h

/-- A key whose entry has a non-empty trimmed value cannot be one of the
three credential keys when none of them is supplied non-empty. -/
theorem not_cred_of_not_supplied (ps : List (String × String)) (k v : String)
    (hmem : (k, v) ∈ ps) (hv : goTrimSpace v ≠ "")
    (ha : suppliesKey ps "openai-api-key" = false)
    (hm : suppliesKey ps "openai-model" = false)
    (hb : suppliesKey ps "openai-base-url" = false) :
    k ∉ openaiParamKeys := by
  intro hk
  simp only [openaiParamKeys, List.mem_cons, List.not_mem_nil, or_false] at hk
  rcases hk with rfl | rfl | rfl
  · rw [suppliesKey, List.any_eq_false] at ha
    have h2 := ha _ hmem
    simp [hv] at h2
  · rw [suppliesKey, List.any_eq_false] at hm
    have h2 := hm _ hmem
    simp [hv] at h2
  · rw [suppliesKey, List.any_eq_false] at hb
    have h2 := hb _ hmem
    simp [hv] at h2

/-- C4 (counterexample): `processTask` appends `--openai`
unconditionally, and the base arguments already carry `--files`; so for
the submitted parameter map `{openai: true, files: on,
openai-api-key: sk-1}` the derived command line contains the bare flags
`--openai` and `--files` twice each, not exactly once. -/
theorem openai_flag_appears_twice :
    ("openai", "true") ∈
      (sampleTask [("openai", "true"), ("files", "on"), ("openai-api-key", "sk-1")]).params ∧
    ("files", "on") ∈
      (sampleTask [("openai", "true"), ("files", "on"), ("openai-api-key", "sk-1")]).params ∧
    ((resolveCommand
        (sampleTask [("openai", "true"), ("files", "on"), ("openai-api-key", "sk-1")])
        ⟨"", "", ""⟩).getD []).count "--openai" = 2 ∧
    ((resolveCommand
        (sampleTask [("openai", "true"), ("files", "on"), ("openai-api-key", "sk-1")])
        ⟨"", "", ""⟩).getD []).count "--files" = 2 := by
  decide

/-- C4 (amended): in any spawned command line, a parameter key that is
not one of the engine-emitted flags (`openai`, `files`, `lang-in`,
`lang-out`, `output`, `pages`) and whose flag token is not impersonated
by any value slot appears as a bare flag exactly once when its trimmed
value is `true`/`on`, and not at all when its trimmed value is empty,
`false` or `off` (for a key that is also not one of the credential
keys, whose flags the environment fallback can emit on its own);
`--openai` itself is always appended once more, so for the key
`openai` the bare flag appears twice. -/
theorem command_flag_occurrences (t : TaskRec) (env : OpenAIEnv)
    (args : List String) (k v : String)
    (hres : resolveCommand t env = some args)
    (hmem : (k, v) ∈ t.params)
    (hnd : (t.params.map Prod.fst).Nodup)
    (hkeng : k ∉ engineFlagKeys)
    (hbase1 : ("--" ++ k) ≠ reconstructedInputPath t)
    (hbase2 : ("--" ++ k) ≠ t.langIn)
    (hbase3 : ("--" ++ k) ≠ t.langOut)
    (hbase4 : ("--" ++ k) ≠ t.pages)
    (hbase5 : ("--" ++ k) ≠ outputSubDir t)
    (henv1 : ("--" ++ k) ≠ env.apiKey)
    (henv2 : ("--" ++ k) ≠ env.model)
    (henv3 : ("--" ++ k) ≠ env.baseURL)
    (henv4 : ("--" ++ k) ≠ "gpt-4o-mini")
    (hvals : ∀ kv ∈ t.params, ("--" ++ k) ≠ goTrimSpace kv.2) :
    ((goTrimSpace v = "true" ∨ goTrimSpace v = "on") →
      args.count ("--" ++ k) = 1) ∧
    ((goTrimSpace v = "" ∨ goTrimSpace v = "false" ∨ goTrimSpace v = "off") →
      k ∉ openaiParamKeys → ("--" ++ k) ∉ args) := by
  have hko : ("--" ++ k) ≠ "--openai" := by
    intro h
    have : k = "openai" := flag_inj (show ("--" ++ k : String) = "--" ++ "openai" from h)
    rw [this] at hkeng
    simp [engineFlagKeys] at hkeng
  have hbase := count_baseArgs_zero t k hkeng hbase1 hbase2 hbase3 hbase4 hbase5
  have hopenai : List.count ("--" ++ k) ["--openai"] = 0 :=
    count_singleton_ne (fun h => hko h.symm)
  simp only [resolveCommand] at hres
  split at hres
  · rename_i hcond
    simp only [Bool.and_eq_true, Bool.not_eq_true'] at hcond
    obtain ⟨⟨ha, hm⟩, hb⟩ := hcond
    split at hres
    · rename_i hek
      have hargs := (Option.some.inj hres).symm
      constructor
      · intro htv
        have hknc : k ∉ openaiParamKeys := by
          apply not_cred_of_not_supplied t.params k v hmem _ ha hm hb
          rcases htv with h | h <;> simp [h]
        have henvz := count_envCredArgs_zero env k hknc henv1 henv2 henv3 henv4
        have hpar := count_paramArgs_of_mem t.params k v hnd hmem hvals
        rw [entryArgs_eq_flag k v htv] at hpar
        rw [hargs]
        simp only [List.count_append, hbase, henvz, hopenai, hpar]
        simp
      · intro hdv hknc
        have henvz := count_envCredArgs_zero env k hknc henv1 henv2 henv3 henv4
        have hpar := count_paramArgs_of_mem t.params k v hnd hmem hvals
        rw [entryArgs_eq_nil k v hdv] at hpar
        rw [← List.count_eq_zero (l := args)]
        rw [hargs]
        simp only [List.count_append, hbase, henvz, hopenai, hpar]
        simp
    · exact absurd hres (by simp)
  · have hargs := (Option.some.inj hres).symm
    constructor
    · intro htv
      have hpar := count_paramArgs_of_mem t.params k v hnd hmem hvals
      rw [entryArgs_eq_flag k v htv] at hpar
      rw [hargs]
      simp only [List.count_append, hbase, hopenai, hpar]
      simp
    · intro hdv hknc
      have hpar := count_paramArgs_of_mem t.params k v hnd hmem hvals
      rw [entryArgs_eq_nil k v hdv] at hpar
      rw [← List.count_eq_zero (l := args)]
      rw [hargs]
      simp only [List.count_append, hbase, hopenai, hpar]
      simp

/-- C4 (witness for the amended theorem): a concrete spawned command
where the truthy key `skip-clean` yields its bare flag exactly once. -/
theorem command_flag_occurrences_witness :
    ((goTrimSpace "true" = "true" ∨ goTrimSpace "true" = "on") →
      ((resolveCommand
          (sampleTask [("skip-clean", "true"), ("openai-api-key", "sk-9")])
          ⟨"", "", ""⟩).getD []).count ("--" ++ "skip-clean") = 1) ∧
    ((goTrimSpace "true" = "" ∨ goTrimSpace "true" = "false" ∨
        goTrimSpace "true" = "off") →
      "skip-clean" ∉ openaiParamKeys →
      ("--" ++ "skip-clean") ∉
        (resolveCommand
          (sampleTask [("skip-clean", "true"), ("openai-api-key", "sk-9")])
          ⟨"", "", ""⟩).getD []) :=
  command_flag_occurrences
    (sampleTask [("skip-clean", "true"), ("openai-api-key", "sk-9")])
    ⟨"", "", ""⟩ _ "skip-clean" "true" rfl (by decide) (by decide) (by decide)
    (by decide) (by decide) (by decide) (by decide) (by decide) (by decide)
    (by decide) (by decide) (by decide) (by decide)

end BabelDoc
